import Mathlib

/-!
Verification of `backend/utils/smart_factor_extractor.py` (class
`SmartFactorExtractor`).

Modelling conventions:

* Python floats are modelled as `ℚ`; all arithmetic performed by the module on
  factor values is exact decimal arithmetic, so `ℚ` is faithful up to float
  rounding.  The final feature vector multiplies by `2 * π`, so it lives in `ℝ`.
* `re.findall` and `float(...)` are external library primitives; they are
  passed as explicit function parameters `findall : String → String → List String`
  (pattern, text ↦ list of captured groups) and `parse : String → Option ℚ`
  (`float` succeeding or raising).  Every theorem below is parametric in them
  unless the concrete text makes their behaviour unambiguous (e.g. on a text
  with no ASCII digit every numeric pattern of this module — each contains
  `\d` — has no match, so `findall` returns `[]`).
* Python `str.lower` is full Unicode; the vocabulary of this module is ASCII
  plus CJK, on which ASCII case folding coincides, so `Char.toLower` is used.
* Python `str.count` counts non-overlapping occurrences scanning left to
  right; `countOccs` below implements exactly that (including the
  `t.count('') = t.length + 1` behaviour of the empty pattern).
* The `try/except` in `extract_factors_from_tavily_data` masks exceptions with
  the default factor set; the embedded scanners are total functions, so the
  exception branch has no counterpart in the model.
-/

/-- One extracted factor: the dicts `{"name": ..., "value": ..., "weight": ...}`
built by the scanners and by `_get_default_factors`. -/
structure Factor where
  name : String
  value : ℚ
  weight : ℚ
deriving DecidableEq, Repr

/-- The input record of `extract_factors_from_tavily_data`: only the
`'report'` key is read (`tavily_data.get('report', '')`); all other keys are
ignored, so only that field is modelled.  `none` models an absent key. -/
structure TavilyData where
  report : Option String
deriving DecidableEq, Repr

/-- Input records of `extract_features_from_factors`: arbitrary mappings read
only through `factor.get('value', 0.0)` and `factor.get('weight', 0.0)`; a
`none` field models a missing key.  Any `'name'` key is never read. -/
structure FactorDict where
  value : Option ℚ
  weight : Option ℚ
deriving DecidableEq, Repr

/-- ASCII case folding, the restriction of Python `str.lower` to the
vocabulary used by this module. -/
def lowerStr (s : String) : String := ⟨s.data.map Char.toLower⟩

/-- Scanner for non-overlapping substring occurrences, left to right: when a
match starts, the next `p.length - 1` start positions are skipped (second
argument is the remaining skip count). -/
def countOccsAux (p : List Char) : List Char → Nat → Nat
  | [], _ => 0
  | _ :: rest, Nat.succ n => countOccsAux p rest n
  | c :: rest, 0 =>
    if p.isPrefixOf (c :: rest) then countOccsAux p rest (p.length - 1) + 1
    else countOccsAux p rest 0

/-- Python `t.count(p)` on character lists: non-overlapping occurrences;
`t.count('')` is `t.length + 1`. -/
def countOccs (t p : List Char) : Nat :=
  if p = [] then t.length + 1 else countOccsAux p t 0

/-- Python `text.count(sub)` on strings. -/
def pyCount (text sub : String) : Nat := countOccs text.data sub.data

/-- `SmartFactorExtractor._calculate_text_importance`: keyword-frequency score,
normalized to [0, 10]. -/
def calculate_text_importance (text : String) (indicators : List String) : ℚ :=
  if text = "" ∨ indicators = [] then 0
  else
    min ((indicators.foldl
      (fun acc ind =>
        if 0 < pyCount (lowerStr text) (lowerStr ind) then
          acc + min ((pyCount (lowerStr text) (lowerStr ind) : ℚ) * 2) 10
        else acc) 0) / (indicators.length : ℚ)) 10

/-- `SmartFactorExtractor._extract_numeric_value`: try the patterns in order;
the first pattern with at least one match contributes its first captured
group, parsed by `float`; a parse failure (`except ... continue`) falls
through to the next pattern; exhaustion returns `0.0`. -/
def extract_numeric_value (findall : String → String → List String)
    (parse : String → Option ℚ) : List String → String → ℚ
  | [], _ => 0
  | pat :: rest, text =>
    match findall pat text with
    | [] => extract_numeric_value findall parse rest text
    | m :: _ =>
      match parse m with
      | some v => v
      | none => extract_numeric_value findall parse rest text

/-- The `revenue_patterns` table of `_extract_financial_factors`. -/
def revenue_patterns : List String :=
  ["营收.*?(\\d+(?:\\.\\d+)?)\\s*(?:亿|万|千)?(?:美元|元|RMB)?",
   "收入.*?(\\d+(?:\\.\\d+)?)\\s*(?:亿|万|千)?(?:美元|元|RMB)?",
   "revenue.*?(\\d+(?:\\.\\d+)?)\\s*(?:billion|million|thousand)?",
   "(\\d+(?:\\.\\d+)?)\\s*(?:亿|万|千)?(?:美元|元|RMB)?.*?营收",
   "(\\d+(?:\\.\\d+)?)\\s*(?:billion|million|thousand).*?revenue"]

/-- The `profit_patterns` table of `_extract_financial_factors`. -/
def profit_patterns : List String :=
  ["利润率.*?(\\d+(?:\\.\\d+)?)%",
   "毛利率.*?(\\d+(?:\\.\\d+)?)%",
   "净利率.*?(\\d+(?:\\.\\d+)?)%",
   "profit margin.*?(\\d+(?:\\.\\d+)?)%",
   "(\\d+(?:\\.\\d+)?)%.*?利润率"]

/-- The `growth_patterns` table of `_extract_financial_factors`. -/
def growth_patterns : List String :=
  ["增长率.*?(\\d+(?:\\.\\d+)?)%",
   "增长.*?(\\d+(?:\\.\\d+)?)%",
   "growth.*?(\\d+(?:\\.\\d+)?)%",
   "(\\d+(?:\\.\\d+)?)%.*?增长"]

/-- `cash_flow_indicators` of `_extract_financial_factors`. -/
def cash_flow_indicators : List String :=
  ["现金流", "cash flow", "经营现金流", "operating cash flow"]

/-- `debt_indicators` of `_extract_financial_factors`. -/
def debt_indicators : List String :=
  ["负债率", "debt ratio", "资产负债率", "debt-to-equity"]

/-- `SmartFactorExtractor._extract_financial_factors`: the sequential
`factors.append` calls are rendered as a concatenation of conditional
singleton lists, in source order. -/
def extract_financial_factors (findall : String → String → List String)
    (parse : String → Option ℚ) (report_text : String) : List Factor :=
  (let revenue_value := extract_numeric_value findall parse revenue_patterns report_text
   if 0 < revenue_value then
     [{ name := "营收规模", value := min (revenue_value / 100) 10, weight := 0.25 }]
   else []) ++
  (let profit_value := extract_numeric_value findall parse profit_patterns report_text
   if 0 < profit_value then
     [{ name := "利润率", value := min (profit_value / 10) 10, weight := 0.25 }]
   else []) ++
  (let growth_value := extract_numeric_value findall parse growth_patterns report_text
   if 0 < growth_value then
     [{ name := "财务增长率", value := min (growth_value / 5) 10, weight := 0.2 }]
   else []) ++
  (let cash_flow_score := calculate_text_importance report_text cash_flow_indicators
   if 0 < cash_flow_score then
     [{ name := "现金流健康度", value := cash_flow_score, weight := 0.15 }]
   else []) ++
  (let debt_score := calculate_text_importance report_text debt_indicators
   if 0 < debt_score then
     [{ name := "财务健康度", value := max 0 (10 - debt_score * 5), weight := 0.15 }]
   else [])

/-- `market_share_patterns` of `_extract_market_factors`. -/
def market_share_patterns : List String :=
  ["市场份额.*?(\\d+(?:\\.\\d+)?)%",
   "market share.*?(\\d+(?:\\.\\d+)?)%",
   "(\\d+(?:\\.\\d+)?)%.*?市场份额",
   "(\\d+(?:\\.\\d+)?)%.*?market share"]

/-- `market_position_indicators` of `_extract_market_factors`. -/
def market_position_indicators : List String :=
  ["市场领导者", "market leader", "行业第一", "leading position",
   "市场领先", "market leading", "行业龙头", "dominant position"]

/-- `brand_indicators` of `_extract_market_factors`. -/
def brand_indicators : List String :=
  ["品牌", "brand", "品牌价值", "brand value", "品牌知名度", "brand awareness"]

/-- `customer_indicators` of `_extract_market_factors`. -/
def customer_indicators : List String :=
  ["客户满意度", "customer satisfaction", "用户满意度", "user satisfaction"]

/-- `coverage_indicators` of `_extract_market_factors`. -/
def coverage_indicators : List String :=
  ["全球", "global", "国际化", "international", "覆盖", "coverage"]

/-- `SmartFactorExtractor._extract_market_factors`. -/
def extract_market_factors (findall : String → String → List String)
    (parse : String → Option ℚ) (report_text : String) : List Factor :=
  (let market_share_value := extract_numeric_value findall parse market_share_patterns report_text
   if 0 < market_share_value then
     [{ name := "市场份额", value := min (market_share_value / 2) 10, weight := 0.3 }]
   else []) ++
  (let market_position_score := calculate_text_importance report_text market_position_indicators
   if 0 < market_position_score then
     [{ name := "市场地位", value := market_position_score, weight := 0.25 }]
   else []) ++
  (let brand_score := calculate_text_importance report_text brand_indicators
   if 0 < brand_score then
     [{ name := "品牌影响力", value := brand_score, weight := 0.2 }]
   else []) ++
  (let customer_score := calculate_text_importance report_text customer_indicators
   if 0 < customer_score then
     [{ name := "客户满意度", value := customer_score, weight := 0.15 }]
   else []) ++
  (let coverage_score := calculate_text_importance report_text coverage_indicators
   if 0 < coverage_score then
     [{ name := "市场覆盖度", value := coverage_score, weight := 0.1 }]
   else [])

/-- `competitive_advantage_indicators` of `_extract_competitive_factors`. -/
def competitive_advantage_indicators : List String :=
  ["竞争优势", "competitive advantage", "核心竞争力", "core competency",
   "差异化", "differentiation", "独特优势", "unique advantage"]

/-- `tech_advantage_indicators` of `_extract_competitive_factors`. -/
def tech_advantage_indicators : List String :=
  ["技术优势", "technical advantage", "技术创新", "technology innovation",
   "专利", "patent", "知识产权", "intellectual property"]

/-- `cost_advantage_indicators` of `_extract_competitive_factors`. -/
def cost_advantage_indicators : List String :=
  ["成本优势", "cost advantage", "成本控制", "cost control",
   "规模效应", "economies of scale", "效率", "efficiency"]

/-- `channel_advantage_indicators` of `_extract_competitive_factors`. -/
def channel_advantage_indicators : List String :=
  ["渠道", "channel", "分销网络", "distribution network",
   "合作伙伴", "partnership", "生态系统", "ecosystem"]

/-- `talent_advantage_indicators` of `_extract_competitive_factors`. -/
def talent_advantage_indicators : List String :=
  ["人才", "talent", "团队", "team", "专家", "expert",
   "管理团队", "management team", "领导力", "leadership"]

/-- `SmartFactorExtractor._extract_competitive_factors`. -/
def extract_competitive_factors (report_text : String) : List Factor :=
  (let competitive_advantage_score := calculate_text_importance report_text competitive_advantage_indicators
   if 0 < competitive_advantage_score then
     [{ name := "竞争优势", value := competitive_advantage_score, weight := 0.3 }]
   else []) ++
  (let tech_advantage_score := calculate_text_importance report_text tech_advantage_indicators
   if 0 < tech_advantage_score then
     [{ name := "技术优势", value := tech_advantage_score, weight := 0.25 }]
   else []) ++
  (let cost_advantage_score := calculate_text_importance report_text cost_advantage_indicators
   if 0 < cost_advantage_score then
     [{ name := "成本优势", value := cost_advantage_score, weight := 0.2 }]
   else []) ++
  (let channel_advantage_score := calculate_text_importance report_text channel_advantage_indicators
   if 0 < channel_advantage_score then
     [{ name := "渠道优势", value := channel_advantage_score, weight := 0.15 }]
   else []) ++
  (let talent_advantage_score := calculate_text_importance report_text talent_advantage_indicators
   if 0 < talent_advantage_score then
     [{ name := "人才优势", value := talent_advantage_score, weight := 0.1 }]
   else [])

/-- `user_growth_patterns` of `_extract_growth_factors`. -/
def user_growth_patterns : List String :=
  ["用户增长.*?(\\d+(?:\\.\\d+)?)%",
   "用户增长率.*?(\\d+(?:\\.\\d+)?)%",
   "user growth.*?(\\d+(?:\\.\\d+)?)%",
   "(\\d+(?:\\.\\d+)?)%.*?用户增长"]

/-- `innovation_indicators` of `_extract_growth_factors`. -/
def innovation_indicators : List String :=
  ["创新", "innovation", "新产品", "new product", "研发", "R&D",
   "技术突破", "breakthrough", "创新产品", "innovative product"]

/-- `international_indicators` of `_extract_growth_factors`. -/
def international_indicators : List String :=
  ["国际化", "international", "全球", "global", "海外", "overseas",
   "国际市场", "international market", "全球化", "globalization"]

/-- `expansion_indicators` of `_extract_growth_factors`. -/
def expansion_indicators : List String :=
  ["并购", "acquisition", "收购", "merger", "扩张", "expansion",
   "投资", "investment", "战略投资", "strategic investment"]

/-- `market_expansion_indicators` of `_extract_growth_factors`. -/
def market_expansion_indicators : List String :=
  ["市场拓展", "market expansion", "新市场", "new market",
   "业务拓展", "business expansion", "多元化", "diversification"]

/-- `SmartFactorExtractor._extract_growth_factors`. -/
def extract_growth_factors (findall : String → String → List String)
    (parse : String → Option ℚ) (report_text : String) : List Factor :=
  (let user_growth_value := extract_numeric_value findall parse user_growth_patterns report_text
   if 0 < user_growth_value then
     [{ name := "用户增长率", value := min (user_growth_value / 3) 10, weight := 0.25 }]
   else []) ++
  (let innovation_score := calculate_text_importance report_text innovation_indicators
   if 0 < innovation_score then
     [{ name := "创新能力", value := innovation_score, weight := 0.25 }]
   else []) ++
  (let international_score := calculate_text_importance report_text international_indicators
   if 0 < international_score then
     [{ name := "国际化程度", value := international_score, weight := 0.2 }]
   else []) ++
  (let expansion_score := calculate_text_importance report_text expansion_indicators
   if 0 < expansion_score then
     [{ name := "扩张能力", value := expansion_score, weight := 0.15 }]
   else []) ++
  (let market_expansion_score := calculate_text_importance report_text market_expansion_indicators
   if 0 < market_expansion_score then
     [{ name := "市场拓展", value := market_expansion_score, weight := 0.15 }]
   else [])

/-- `tech_capability_indicators` of `_extract_tech_factors`. -/
def tech_capability_indicators : List String :=
  ["技术实力", "technical capability", "技术领先", "technology leadership",
   "核心技术", "core technology", "技术优势", "technical advantage"]

/-- `ai_indicators` of `_extract_tech_factors`. -/
def ai_indicators : List String :=
  ["人工智能", "AI", "artificial intelligence", "机器学习", "machine learning",
   "深度学习", "deep learning", "算法", "algorithm", "智能", "intelligent"]

/-- `data_indicators` of `_extract_tech_factors`. -/
def data_indicators : List String :=
  ["数据", "data", "大数据", "big data", "数据分析", "data analytics",
   "数据挖掘", "data mining", "数据驱动", "data-driven"]

/-- `cloud_indicators` of `_extract_tech_factors`. -/
def cloud_indicators : List String :=
  ["云计算", "cloud computing", "云服务", "cloud service",
   "云平台", "cloud platform", "云端", "cloud"]

/-- `mobile_indicators` of `_extract_tech_factors`. -/
def mobile_indicators : List String :=
  ["移动", "mobile", "移动应用", "mobile app", "移动平台", "mobile platform",
   "移动互联网", "mobile internet", "移动技术", "mobile technology"]

/-- `SmartFactorExtractor._extract_tech_factors`. -/
def extract_tech_factors (report_text : String) : List Factor :=
  (let tech_capability_score := calculate_text_importance report_text tech_capability_indicators
   if 0 < tech_capability_score then
     [{ name := "技术实力", value := tech_capability_score, weight := 0.3 }]
   else []) ++
  (let ai_score := calculate_text_importance report_text ai_indicators
   if 0 < ai_score then
     [{ name := "AI技术", value := ai_score, weight := 0.25 }]
   else []) ++
  (let data_score := calculate_text_importance report_text data_indicators
   if 0 < data_score then
     [{ name := "数据能力", value := data_score, weight := 0.2 }]
   else []) ++
  (let cloud_score := calculate_text_importance report_text cloud_indicators
   if 0 < cloud_score then
     [{ name := "云计算", value := cloud_score, weight := 0.15 }]
   else []) ++
  (let mobile_score := calculate_text_importance report_text mobile_indicators
   if 0 < mobile_score then
     [{ name := "移动技术", value := mobile_score, weight := 0.1 }]
   else [])

/-- `SmartFactorExtractor._get_default_factors`. -/
def get_default_factors : List Factor :=
  [{ name := "信息丰富度", value := 5, weight := 0.2 },
   { name := "数据可信度", value := 5, weight := 0.25 },
   { name := "财务健康度", value := 5, weight := 0.3 },
   { name := "市场活跃度", value := 5, weight := 0.25 }]

/-- `SmartFactorExtractor.extract_factors_from_tavily_data`: reads
`tavily_data.get('report', '')`; an empty report short-circuits to the default
factors; otherwise the five scanners run in order and their outputs are
concatenated.  The scanners are total, so the `except → defaults` branch of
the source is unreachable in the model. -/
def extract_factors_from_tavily_data (findall : String → String → List String)
    (parse : String → Option ℚ) (tavily_data : TavilyData) : List Factor :=
  let report_text := tavily_data.report.getD ""
  if report_text = "" then get_default_factors
  else
    extract_financial_factors findall parse report_text ++
    extract_market_factors findall parse report_text ++
    extract_competitive_factors report_text ++
    extract_growth_factors findall parse report_text ++
    extract_tech_factors report_text

/-- `self.feature_qubits = 4`. -/
def feature_qubits : Nat := 4

/-- The per-record weighted value of `extract_features_from_factors`:
`factor.get('value', 0.0) * factor.get('weight', 0.0)`. -/
def weightedValue (f : FactorDict) : ℚ := (f.value.getD 0) * (f.weight.getD 0)

/-- Lines 482–498 of the vectorizer: weighted values, padded with `0.0` up to
`feature_qubits` (the `while` loop), then truncated to the first
`feature_qubits` entries (`features[:self.feature_qubits]`). -/
def weightedFeatures (factors : List FactorDict) : List ℚ :=
  ((factors.map weightedValue) ++
    List.replicate (feature_qubits - (factors.map weightedValue).length) 0).take
    feature_qubits

/-- `np.max` on a nonempty rational array (`0` on the empty array, a case the
vectorizer never produces: its arrays always have `feature_qubits` entries). -/
def listMaxQ : List ℚ → ℚ
  | [] => 0
  | x :: xs => xs.foldl max x

/-- `np.min` on a nonempty rational array. -/
def listMinQ : List ℚ → ℚ
  | [] => 0
  | x :: xs => xs.foldl min x

/-- `np.max(np.abs(l))`. -/
def maxAbsQ (l : List ℚ) : ℚ := listMaxQ (l.map (fun x => |x|))

/-- `SmartFactorExtractor.extract_features_from_factors`: if the maximum
absolute weighted value is positive, min-max normalize into `[0, 2π]`
(`(x - min) / (max - min) * 2 * np.pi`); otherwise return the (all-zero)
vector unchanged.  The subtraction and division are exact in `ℚ`; only the
final scaling by `2π` moves to `ℝ`.  Note `ℚ`-division by zero is `0` where
NumPy would produce `nan` — the branch condition below makes the zero
denominator reachable exactly when all entries are equal and nonzero. -/
noncomputable def extract_features_from_factors (factors : List FactorDict) : List ℝ :=
  if 0 < maxAbsQ (weightedFeatures factors) then
    (weightedFeatures factors).map (fun x =>
      (((x - listMinQ (weightedFeatures factors)) /
          (listMaxQ (weightedFeatures factors) - listMinQ (weightedFeatures factors)) : ℚ) : ℝ)
        * (2 * Real.pi))
  else (weightedFeatures factors).map (fun x : ℚ => (x : ℝ))

/-- `np.max` on a nonempty real array. -/
noncomputable def listMaxR : List ℝ → ℝ
  | [] => 0
  | x :: xs => xs.foldl max x

/-- `np.min` on a nonempty real array. -/
noncomputable def listMinR : List ℝ → ℝ
  | [] => 0
  | x :: xs => xs.foldl min x

/-- The importance formula claimed by the spec for
`_calculate_text_importance` (stated from the spec's words, to be compared
with the source function): `min((Σ_kw min(count(kw) * 2, 10)) / n, 10)` with
case-insensitive substring counts. -/
def importanceFormula (text : String) (indicators : List String) : ℚ :=
  min (((indicators.map
          (fun kw => min ((pyCount (lowerStr text) (lowerStr kw) : ℚ) * 2) 10)).sum)
        / (indicators.length : ℚ)) 10

/-- `re.findall` behaviour on a text matched by none of the numeric patterns:
every pattern table of this module requires an ASCII digit (`\d`), so on a
digit-free text `re.findall` returns `[]` for each of them. -/
def emptyFindall : String → String → List String := fun _ _ => []

/-- A `float` parser stand-in for runs in which no captured group is ever
parsed (no pattern matched). -/
def noneParse : String → Option ℚ := fun _ => none

/-! ### Helper lemmas -/

theorem mem_ite_singleton {c : Prop} [Decidable c] {f g : Factor}
    (h : f ∈ (if c then [g] else [])) : c ∧ f = g := by
  by_cases hc : c
  · rw [if_pos hc] at h
    exact ⟨hc, List.mem_singleton.1 h⟩
  · rw [if_neg hc] at h
    exact absurd h (List.not_mem_nil f)

theorem foldl_importance_zero (tl : String) (l : List String)
    (h : ∀ i ∈ l, pyCount tl (lowerStr i) = 0) :
    l.foldl (fun acc ind =>
      if 0 < pyCount tl (lowerStr ind) then
        acc + min ((pyCount tl (lowerStr ind) : ℚ) * 2) 10
      else acc) 0 = 0 := by
  induction l with
  | nil => rfl
  | cons x xs ih =>
    have hx : pyCount tl (lowerStr x) = 0 := h x (by simp)
    simp only [List.foldl, hx]
    simpa using ih (fun i hi => h i (List.mem_cons_of_mem _ hi))

theorem calc_zero_of_counts (text : String) (inds : List String)
    (h : ∀ i ∈ inds, pyCount (lowerStr text) (lowerStr i) = 0) :
    calculate_text_importance text inds = 0 := by
  unfold calculate_text_importance
  split
  · rfl
  · rw [foldl_importance_zero _ _ h]
    simp

theorem foldl_importance_ge (tl : String) (l : List String) :
    ∀ a : ℚ, a ≤ l.foldl (fun acc ind =>
      if 0 < pyCount tl (lowerStr ind) then
        acc + min ((pyCount tl (lowerStr ind) : ℚ) * 2) 10
      else acc) a := by
  induction l with
  | nil => intro a; exact le_refl a
  | cons x xs ih =>
    intro a
    simp only [List.foldl]
    refine le_trans ?_ (ih _)
    by_cases hx : 0 < pyCount tl (lowerStr x)
    · rw [if_pos hx]
      have : (0:ℚ) ≤ min ((pyCount tl (lowerStr x) : ℚ) * 2) 10 :=
        le_min (by positivity) (by norm_num)
      linarith
    · rw [if_neg hx]

theorem importance_nonneg (text : String) (inds : List String) :
    0 ≤ calculate_text_importance text inds := by
  unfold calculate_text_importance
  split
  · exact le_refl 0
  · next h =>
    have hne : inds ≠ [] := fun hn => h (Or.inr hn)
    have hlen : (0:ℚ) < (inds.length : ℚ) := by
      have : 0 < inds.length := List.length_pos.2 hne
      exact_mod_cast this
    refine le_min (div_nonneg ?_ (le_of_lt hlen)) (by norm_num)
    exact foldl_importance_ge _ _ 0

theorem importance_le_ten (text : String) (inds : List String) :
    calculate_text_importance text inds ≤ 10 := by
  unfold calculate_text_importance
  split
  · norm_num
  · exact min_le_right _ _

theorem weightedFeatures_length (fs : List FactorDict) :
    (weightedFeatures fs).length = feature_qubits := by
  unfold weightedFeatures
  rw [List.length_take, List.length_append, List.length_replicate]
  omega

theorem weightedFeatures_ne_nil (fs : List FactorDict) : weightedFeatures fs ≠ [] := by
  intro h
  have := weightedFeatures_length fs
  rw [h] at this
  exact absurd this.symm (by unfold feature_qubits; norm_num)

theorem foldl_max_self_le (xs : List ℚ) : ∀ a : ℚ, a ≤ xs.foldl max a := by
  induction xs with
  | nil => intro a; exact le_refl a
  | cons y ys ih =>
    intro a
    exact le_trans (le_max_left a y) (ih (max a y))

theorem le_foldl_max (xs : List ℚ) : ∀ a x : ℚ, x ∈ xs → x ≤ xs.foldl max a := by
  induction xs with
  | nil => intro a x hx; exact absurd hx (List.not_mem_nil x)
  | cons y ys ih =>
    intro a x hx
    rcases List.mem_cons.1 hx with rfl | hx
    · exact le_trans (le_max_right a x) (foldl_max_self_le ys (max a x))
    · exact ih (max a y) x hx

theorem foldl_max_mem (xs : List ℚ) : ∀ a : ℚ, xs.foldl max a = a ∨ xs.foldl max a ∈ xs := by
  induction xs with
  | nil => intro a; exact Or.inl rfl
  | cons y ys ih =>
    intro a
    simp only [List.foldl]
    rcases ih (max a y) with h | h
    · rw [h]
      rcases max_choice a y with hm | hm
      · exact Or.inl hm
      · rw [hm]
        exact Or.inr (List.mem_cons_self y ys)
    · exact Or.inr (List.mem_cons_of_mem y h)

theorem listMaxQ_mem {l : List ℚ} (h : l ≠ []) : listMaxQ l ∈ l := by
  cases l with
  | nil => exact absurd rfl h
  | cons x xs =>
    show xs.foldl max x ∈ x :: xs
    rcases foldl_max_mem xs x with hm | hm
    · rw [hm]; exact List.mem_cons_self x xs
    · exact List.mem_cons_of_mem x hm

theorem le_listMaxQ {l : List ℚ} {x : ℚ} (hx : x ∈ l) : x ≤ listMaxQ l := by
  cases l with
  | nil => exact absurd hx (List.not_mem_nil x)
  | cons y ys =>
    show x ≤ ys.foldl max y
    rcases List.mem_cons.1 hx with rfl | hx
    · exact foldl_max_self_le ys x
    · exact le_foldl_max ys y x hx

theorem foldl_min_self_le (xs : List ℚ) : ∀ a : ℚ, xs.foldl min a ≤ a := by
  induction xs with
  | nil => intro a; exact le_refl a
  | cons y ys ih =>
    intro a
    exact le_trans (ih (min a y)) (min_le_left a y)

theorem foldl_min_le (xs : List ℚ) : ∀ a x : ℚ, x ∈ xs → xs.foldl min a ≤ x := by
  induction xs with
  | nil => intro a x hx; exact absurd hx (List.not_mem_nil x)
  | cons y ys ih =>
    intro a x hx
    rcases List.mem_cons.1 hx with rfl | hx
    · exact le_trans (foldl_min_self_le ys (min a x)) (min_le_right a x)
    · exact ih (min a y) x hx

theorem foldl_min_mem (xs : List ℚ) : ∀ a : ℚ, xs.foldl min a = a ∨ xs.foldl min a ∈ xs := by
  induction xs with
  | nil => intro a; exact Or.inl rfl
  | cons y ys ih =>
    intro a
    simp only [List.foldl]
    rcases ih (min a y) with h | h
    · rw [h]
      rcases min_choice a y with hm | hm
      · exact Or.inl hm
      · rw [hm]
        exact Or.inr (List.mem_cons_self y ys)
    · exact Or.inr (List.mem_cons_of_mem y h)

theorem listMinQ_mem {l : List ℚ} (h : l ≠ []) : listMinQ l ∈ l := by
  cases l with
  | nil => exact absurd rfl h
  | cons x xs =>
    show xs.foldl min x ∈ x :: xs
    rcases foldl_min_mem xs x with hm | hm
    · rw [hm]; exact List.mem_cons_self x xs
    · exact List.mem_cons_of_mem x hm

theorem listMinQ_le {l : List ℚ} {x : ℚ} (hx : x ∈ l) : listMinQ l ≤ x := by
  cases l with
  | nil => exact absurd hx (List.not_mem_nil x)
  | cons y ys =>
    show ys.foldl min y ≤ x
    rcases List.mem_cons.1 hx with rfl | hx
    · exact foldl_min_self_le ys x
    · exact foldl_min_le ys y x hx

theorem abs_le_maxAbsQ {l : List ℚ} {x : ℚ} (hx : x ∈ l) : |x| ≤ maxAbsQ l :=
  le_listMaxQ (List.mem_map_of_mem (fun y => |y|) hx)

theorem maxAbsQ_pos {l : List ℚ} (hne : l ≠ [])
    (hlt : listMinQ l < listMaxQ l) : 0 < maxAbsQ l := by
  by_cases hM : 0 < listMaxQ l
  · exact lt_of_lt_of_le hM (le_trans (le_abs_self _) (abs_le_maxAbsQ (listMaxQ_mem hne)))
  · have hm : listMinQ l < 0 := lt_of_lt_of_le hlt (not_lt.1 hM)
    have : 0 < |listMinQ l| := by rw [abs_of_neg hm]; linarith
    exact lt_of_lt_of_le this (abs_le_maxAbsQ (listMinQ_mem hne))

theorem foldl_max_map_comm (g : ℚ → ℝ) (hg : ∀ a b : ℚ, g (max a b) = max (g a) (g b)) :
    ∀ (l : List ℚ) (a : ℚ), (l.map g).foldl max (g a) = g (l.foldl max a) := by
  intro l
  induction l with
  | nil => intro a; rfl
  | cons x xs ih =>
    intro a
    show (xs.map g).foldl max (max (g a) (g x)) = g (xs.foldl max (max a x))
    rw [← hg a x, ih (max a x)]

theorem foldl_min_map_comm (g : ℚ → ℝ) (hg : ∀ a b : ℚ, g (min a b) = min (g a) (g b)) :
    ∀ (l : List ℚ) (a : ℚ), (l.map g).foldl min (g a) = g (l.foldl min a) := by
  intro l
  induction l with
  | nil => intro a; rfl
  | cons x xs ih =>
    intro a
    show (xs.map g).foldl min (min (g a) (g x)) = g (xs.foldl min (min a x))
    rw [← hg a x, ih (min a x)]

theorem listMaxR_map (g : ℚ → ℝ) (hg : ∀ a b : ℚ, g (max a b) = max (g a) (g b))
    {l : List ℚ} (hne : l ≠ []) : listMaxR (l.map g) = g (listMaxQ l) := by
  cases l with
  | nil => exact absurd rfl hne
  | cons x xs =>
    show (xs.map g).foldl max (g x) = g (xs.foldl max x)
    exact foldl_max_map_comm g hg xs x

theorem listMinR_map (g : ℚ → ℝ) (hg : ∀ a b : ℚ, g (min a b) = min (g a) (g b))
    {l : List ℚ} (hne : l ≠ []) : listMinR (l.map g) = g (listMinQ l) := by
  cases l with
  | nil => exact absurd rfl hne
  | cons x xs =>
    show (xs.map g).foldl min (g x) = g (xs.foldl min x)
    exact foldl_min_map_comm g hg xs x

theorem financial_factors_bounds (findall : String → String → List String)
    (parse : String → Option ℚ) (text : String) :
    ∀ f ∈ extract_financial_factors findall parse text,
      0 ≤ f.value ∧ f.value ≤ 10 ∧ 0 < f.weight ∧ f.weight ≤ 1 := by
  intro f hf
  simp only [extract_financial_factors, List.mem_append] at hf
  rcases hf with (((h | h) | h) | h) | h <;> obtain ⟨hc, rfl⟩ := mem_ite_singleton h
  · exact ⟨le_min (div_nonneg hc.le (by norm_num)) (by norm_num), min_le_right _ _,
      by norm_num, by norm_num⟩
  · exact ⟨le_min (div_nonneg hc.le (by norm_num)) (by norm_num), min_le_right _ _,
      by norm_num, by norm_num⟩
  · exact ⟨le_min (div_nonneg hc.le (by norm_num)) (by norm_num), min_le_right _ _,
      by norm_num, by norm_num⟩
  · exact ⟨importance_nonneg _ _, importance_le_ten _ _, by norm_num, by norm_num⟩
  · refine ⟨le_max_left _ _, ?_, by norm_num, by norm_num⟩
    have h0 := importance_nonneg text debt_indicators
    exact max_le (by norm_num) (by linarith)

theorem market_factors_bounds (findall : String → String → List String)
    (parse : String → Option ℚ) (text : String) :
    ∀ f ∈ extract_market_factors findall parse text,
      0 ≤ f.value ∧ f.value ≤ 10 ∧ 0 < f.weight ∧ f.weight ≤ 1 := by
  intro f hf
  simp only [extract_market_factors, List.mem_append] at hf
  rcases hf with (((h | h) | h) | h) | h <;> obtain ⟨hc, rfl⟩ := mem_ite_singleton h
  · exact ⟨le_min (div_nonneg hc.le (by norm_num)) (by norm_num), min_le_right _ _,
      by norm_num, by norm_num⟩
  all_goals exact ⟨importance_nonneg _ _, importance_le_ten _ _, by norm_num, by norm_num⟩

theorem competitive_factors_bounds (text : String) :
    ∀ f ∈ extract_competitive_factors text,
      0 ≤ f.value ∧ f.value ≤ 10 ∧ 0 < f.weight ∧ f.weight ≤ 1 := by
  intro f hf
  simp only [extract_competitive_factors, List.mem_append] at hf
  rcases hf with (((h | h) | h) | h) | h <;> obtain ⟨hc, rfl⟩ := mem_ite_singleton h
  all_goals exact ⟨importance_nonneg _ _, importance_le_ten _ _, by norm_num, by norm_num⟩

theorem growth_factors_bounds (findall : String → String → List String)
    (parse : String → Option ℚ) (text : String) :
    ∀ f ∈ extract_growth_factors findall parse text,
      0 ≤ f.value ∧ f.value ≤ 10 ∧ 0 < f.weight ∧ f.weight ≤ 1 := by
  intro f hf
  simp only [extract_growth_factors, List.mem_append] at hf
  rcases hf with (((h | h) | h) | h) | h <;> obtain ⟨hc, rfl⟩ := mem_ite_singleton h
  · exact ⟨le_min (div_nonneg hc.le (by norm_num)) (by norm_num), min_le_right _ _,
      by norm_num, by norm_num⟩
  all_goals exact ⟨importance_nonneg _ _, importance_le_ten _ _, by norm_num, by norm_num⟩

theorem tech_factors_bounds (text : String) :
    ∀ f ∈ extract_tech_factors text,
      0 ≤ f.value ∧ f.value ≤ 10 ∧ 0 < f.weight ∧ f.weight ≤ 1 := by
  intro f hf
  simp only [extract_tech_factors, List.mem_append] at hf
  rcases hf with (((h | h) | h) | h) | h <;> obtain ⟨hc, rfl⟩ := mem_ite_singleton h
  all_goals exact ⟨importance_nonneg _ _, importance_le_ten _ _, by norm_num, by norm_num⟩

theorem extract_numeric_value_emptyFindall (parse : String → Option ℚ)
    (pats : List String) (text : String) :
    extract_numeric_value emptyFindall parse pats text = 0 := by
  induction pats with
  | nil => rfl
  | cons p ps ih => simpa [extract_numeric_value, emptyFindall] using ih

theorem financial_empty_on_hashes (parse : String → Option ℚ) :
    extract_financial_factors emptyFindall parse "####" = [] := by
  have h1 : calculate_text_importance "####" cash_flow_indicators = 0 :=
    calc_zero_of_counts _ _ (by decide)
  have h2 : calculate_text_importance "####" debt_indicators = 0 :=
    calc_zero_of_counts _ _ (by decide)
  simp [extract_financial_factors, extract_numeric_value_emptyFindall, h1, h2]

theorem market_empty_on_hashes (parse : String → Option ℚ) :
    extract_market_factors emptyFindall parse "####" = [] := by
  have h1 : calculate_text_importance "####" market_position_indicators = 0 :=
    calc_zero_of_counts _ _ (by decide)
  have h2 : calculate_text_importance "####" brand_indicators = 0 :=
    calc_zero_of_counts _ _ (by decide)
  have h3 : calculate_text_importance "####" customer_indicators = 0 :=
    calc_zero_of_counts _ _ (by decide)
  have h4 : calculate_text_importance "####" coverage_indicators = 0 :=
    calc_zero_of_counts _ _ (by decide)
  simp [extract_market_factors, extract_numeric_value_emptyFindall, h1, h2, h3, h4]

theorem competitive_empty_on_hashes :
    extract_competitive_factors "####" = [] := by
  have h1 : calculate_text_importance "####" competitive_advantage_indicators = 0 :=
    calc_zero_of_counts _ _ (by decide)
  have h2 : calculate_text_importance "####" tech_advantage_indicators = 0 :=
    calc_zero_of_counts _ _ (by decide)
  have h3 : calculate_text_importance "####" cost_advantage_indicators = 0 :=
    calc_zero_of_counts _ _ (by decide)
  have h4 : calculate_text_importance "####" channel_advantage_indicators = 0 :=
    calc_zero_of_counts _ _ (by decide)
  have h5 : calculate_text_importance "####" talent_advantage_indicators = 0 :=
    calc_zero_of_counts _ _ (by decide)
  simp [extract_competitive_factors, h1, h2, h3, h4, h5]

theorem growth_empty_on_hashes (parse : String → Option ℚ) :
    extract_growth_factors emptyFindall parse "####" = [] := by
  have h1 : calculate_text_importance "####" innovation_indicators = 0 :=
    calc_zero_of_counts _ _ (by decide)
  have h2 : calculate_text_importance "####" international_indicators = 0 :=
    calc_zero_of_counts _ _ (by decide)
  have h3 : calculate_text_importance "####" expansion_indicators = 0 :=
    calc_zero_of_counts _ _ (by decide)
  have h4 : calculate_text_importance "####" market_expansion_indicators = 0 :=
    calc_zero_of_counts _ _ (by decide)
  simp [extract_growth_factors, extract_numeric_value_emptyFindall, h1, h2, h3, h4]

theorem tech_empty_on_hashes :
    extract_tech_factors "####" = [] := by
  have h1 : calculate_text_importance "####" tech_capability_indicators = 0 :=
    calc_zero_of_counts _ _ (by decide)
  have h2 : calculate_text_importance "####" ai_indicators = 0 :=
    calc_zero_of_counts _ _ (by decide)
  have h3 : calculate_text_importance "####" data_indicators = 0 :=
    calc_zero_of_counts _ _ (by decide)
  have h4 : calculate_text_importance "####" cloud_indicators = 0 :=
    calc_zero_of_counts _ _ (by decide)
  have h5 : calculate_text_importance "####" mobile_indicators = 0 :=
    calc_zero_of_counts _ _ (by decide)
  simp [extract_tech_factors, h1, h2, h3, h4, h5]

theorem extract_factors_eq_defaults (findall : String → String → List String)
    (parse : String → Option ℚ) (d : TavilyData) (h : d.report.getD "" = "") :
    extract_factors_from_tavily_data findall parse d = get_default_factors := by
  simp [extract_factors_from_tavily_data, h]

theorem extract_factors_eq_concat (findall : String → String → List String)
    (parse : String → Option ℚ) (d : TavilyData) (h : d.report.getD "" ≠ "") :
    extract_factors_from_tavily_data findall parse d =
      extract_financial_factors findall parse (d.report.getD "") ++
      extract_market_factors findall parse (d.report.getD "") ++
      extract_competitive_factors (d.report.getD "") ++
      extract_growth_factors findall parse (d.report.getD "") ++
      extract_tech_factors (d.report.getD "") := by
  simp [extract_factors_from_tavily_data, h]

/-! ### Claim theorems -/

/-- Claim C1, counterexample: the claim says the public entry point always
returns a non-empty factor list, even for a non-empty report in which no
pattern or keyword matches.  It is false: on the report `"####"` no keyword
of any indicator set occurs and every numeric pattern requires an ASCII digit
(`re.findall` returns `[]`, the `emptyFindall` instantiation), so all five
scanners return `[]` and the function returns the empty list, not the
defaults. -/
theorem extract_factors_empty_on_unmatched_text :
    extract_factors_from_tavily_data emptyFindall noneParse ⟨some "####"⟩ = [] := by
  rw [extract_factors_eq_concat emptyFindall noneParse ⟨some "####"⟩ (by decide)]
  rw [show (TavilyData.report ⟨some "####"⟩).getD "" = "####" from rfl]
  rw [financial_empty_on_hashes, market_empty_on_hashes, competitive_empty_on_hashes,
    growth_empty_on_hashes, tech_empty_on_hashes]
  rfl

/-- Claim C1, amended: when the report field is absent or empty the entry
point returns the non-empty 4-element default factor list; when the report
text is non-empty the result is the concatenation of the five scanners'
outputs, which may be empty when nothing matches (see the counterexample). -/
theorem extract_factors_nonempty_on_empty_report (findall : String → String → List String)
    (parse : String → Option ℚ) (d : TavilyData) (h : d.report.getD "" = "") :
    extract_factors_from_tavily_data findall parse d = get_default_factors ∧
    extract_factors_from_tavily_data findall parse d ≠ [] := by
  refine ⟨extract_factors_eq_defaults findall parse d h, ?_⟩
  rw [extract_factors_eq_defaults findall parse d h]
  simp [get_default_factors]

/-- Witness for the amended C1 at the concrete record with no report key. -/
theorem extract_factors_nonempty_on_empty_report_witness :
    extract_factors_from_tavily_data emptyFindall noneParse ⟨none⟩ ≠ [] :=
  (extract_factors_nonempty_on_empty_report emptyFindall noneParse ⟨none⟩ rfl).2

/-- Claim C3: an absent or empty report field yields exactly the four default
factors, in order, each with value 5.0, independently of the pattern-matching
and float-parsing primitives (no scanner result can influence the output). -/
theorem defaults_on_missing_or_empty_report (findall : String → String → List String)
    (parse : String → Option ℚ) (d : TavilyData)
    (h : d.report = none ∨ d.report = some "") :
    extract_factors_from_tavily_data findall parse d =
      [{ name := "信息丰富度", value := 5, weight := 0.2 },
       { name := "数据可信度", value := 5, weight := 0.25 },
       { name := "财务健康度", value := 5, weight := 0.3 },
       { name := "市场活跃度", value := 5, weight := 0.25 }] := by
  rcases h with h | h <;>
    simp [extract_factors_from_tavily_data, h, get_default_factors]

/-- Witness for C3 at the record with no report key. -/
theorem defaults_on_missing_or_empty_report_witness :
    extract_factors_from_tavily_data emptyFindall noneParse ⟨none⟩ =
      [{ name := "信息丰富度", value := 5, weight := 0.2 },
       { name := "数据可信度", value := 5, weight := 0.25 },
       { name := "财务健康度", value := 5, weight := 0.3 },
       { name := "市场活跃度", value := 5, weight := 0.25 }] :=
  defaults_on_missing_or_empty_report emptyFindall noneParse ⟨none⟩ (Or.inl rfl)

/-- Claim C4: every factor returned by the public entry point — scanner
produced or default — has value in [0, 10] and weight in (0, 1].  The numeric
scanners guard with `value > 0` and clamp with `min(..., 10.0)`; the keyword
scanners emit importance scores lying in [0, 10]; the debt-derived health
score is `max(0, ...)` of a quantity at most 10; all weights are constants in
(0, 1]. -/
theorem factor_value_weight_bounds (findall : String → String → List String)
    (parse : String → Option ℚ) (d : TavilyData) :
    ∀ f ∈ extract_factors_from_tavily_data findall parse d,
      0 ≤ f.value ∧ f.value ≤ 10 ∧ 0 < f.weight ∧ f.weight ≤ 1 := by
  intro f hf
  by_cases h : d.report.getD "" = ""
  · rw [extract_factors_eq_defaults findall parse d h] at hf
    simp only [get_default_factors, List.mem_cons, List.not_mem_nil, or_false] at hf
    rcases hf with rfl | rfl | rfl | rfl <;> refine ⟨by norm_num, by norm_num, by norm_num, by norm_num⟩
  · rw [extract_factors_eq_concat findall parse d h] at hf
    simp only [List.mem_append] at hf
    rcases hf with (((hm | hm) | hm) | hm) | hm
    · exact financial_factors_bounds findall parse _ f hm
    · exact market_factors_bounds findall parse _ f hm
    · exact competitive_factors_bounds _ f hm
    · exact growth_factors_bounds findall parse _ f hm
    · exact tech_factors_bounds _ f hm

/-- Witness for C4: the first default factor of the empty-report run satisfies
the bounds. -/
theorem factor_value_weight_bounds_witness :
    0 ≤ (Factor.mk "信息丰富度" 5 0.2).value ∧ (Factor.mk "信息丰富度" 5 0.2).value ≤ 10 ∧
      0 < (Factor.mk "信息丰富度" 5 0.2).weight ∧ (Factor.mk "信息丰富度" 5 0.2).weight ≤ 1 :=
  factor_value_weight_bounds emptyFindall noneParse ⟨none⟩ (Factor.mk "信息丰富度" 5 0.2)
    (by rw [extract_factors_eq_defaults emptyFindall noneParse ⟨none⟩ rfl]
        simp [get_default_factors])

/-- Claim C5: if all `feature_qubits` weighted values (after padding and
truncation) are exactly 0, the vectorizer returns the all-zero vector
unchanged: the `np.max(np.abs(...)) > 0` guard fails, the `else` path is
taken, and the min-max division is never evaluated. -/
theorem features_all_zero_unchanged (fs : List FactorDict)
    (h : ∀ x ∈ weightedFeatures fs, x = 0) :
    extract_features_from_factors fs = List.replicate 4 (0 : ℝ) := by
  have hrep : weightedFeatures fs = List.replicate 4 (0 : ℚ) :=
    List.eq_replicate_iff.2 ⟨weightedFeatures_length fs, h⟩
  have hmax : maxAbsQ (List.replicate 4 (0 : ℚ)) = 0 := by
    simp [maxAbsQ, listMaxQ, List.replicate, List.foldl]
  unfold extract_features_from_factors
  rw [hrep, hmax, if_neg (lt_irrefl 0), List.map_replicate]
  norm_num

/-- Witness for C5: the empty factor list pads to four zero weighted values
and yields the all-zero vector. -/
theorem features_all_zero_unchanged_witness :
    extract_features_from_factors ([] : List FactorDict) = List.replicate 4 (0 : ℝ) :=
  features_all_zero_unchanged [] (by
    intro x hx
    rw [show weightedFeatures [] = List.replicate 4 (0 : ℚ) from rfl] at hx
    exact List.eq_of_mem_replicate hx)

/-- Claim C6: the feature vector always has exactly `feature_qubits = 4`
entries: shorter weighted sequences are padded with 0.0 and longer ones are
truncated, and both normalization branches only map over that list. -/
theorem features_length_eq_four (fs : List FactorDict) :
    (extract_features_from_factors fs).length = 4 := by
  unfold extract_features_from_factors
  split <;> rw [List.length_map] <;> exact weightedFeatures_length fs

/-- Claim C9: whenever the debt-indicator importance score reaches 2.0, the
financial scanner emits the 财务健康度 factor with value exactly
`max(0, 10 - score * 5) = 0` and weight 0.15 — a detected factor with value 0
in the public output. -/
theorem financial_health_zero_of_high_debt_score (findall : String → String → List String)
    (parse : String → Option ℚ) (text : String)
    (h : 2 ≤ calculate_text_importance text debt_indicators) :
    (Factor.mk "财务健康度" 0 0.15) ∈ extract_financial_factors findall parse text := by
  have h0 : (0 : ℚ) < calculate_text_importance text debt_indicators := by linarith
  have hv : max 0 (10 - calculate_text_importance text debt_indicators * 5) = 0 :=
    max_eq_left (by linarith)
  simp only [extract_financial_factors, List.mem_append]
  refine Or.inr ?_
  rw [if_pos h0, hv]
  simp

/-- Witness for C9: the report `"负债率负债率负债率负债率"` contains `负债率`
four times (and no other debt keyword), so the importance score is
`min(min(4 * 2, 10) / 4, 10) = 2`, and the factor with value 0 is emitted. -/
theorem financial_health_zero_of_high_debt_score_witness :
    (Factor.mk "财务健康度" 0 0.15) ∈
      extract_financial_factors emptyFindall noneParse "负债率负债率负债率负债率" :=
  financial_health_zero_of_high_debt_score emptyFindall noneParse _ (by
    have h1 : pyCount (lowerStr "负债率负债率负债率负债率") (lowerStr "负债率") = 4 := by decide
    have h2 : pyCount (lowerStr "负债率负债率负债率负债率") (lowerStr "debt ratio") = 0 := by decide
    have h3 : pyCount (lowerStr "负债率负债率负债率负债率") (lowerStr "资产负债率") = 0 := by decide
    have h4 : pyCount (lowerStr "负债率负债率负债率负债率") (lowerStr "debt-to-equity") = 0 := by
      decide
    have hval : calculate_text_importance "负债率负债率负债率负债率" debt_indicators = 2 := by
      unfold calculate_text_importance debt_indicators
      rw [if_neg (by simp)]
      simp only [List.foldl, h1, h2, h3, h4]
      norm_num
    rw [hval])

/-- Helper: the vectorizer only reads the factor list through
`weightedFeatures`. -/
theorem features_congr {fs1 fs2 : List FactorDict}
    (h : weightedFeatures fs1 = weightedFeatures fs2) :
    extract_features_from_factors fs1 = extract_features_from_factors fs2 := by
  unfold extract_features_from_factors
  rw [h]

/-- Claim C10: a record missing the `'value'` key is read as value 0.0 and one
missing the `'weight'` key as weight 0.0 (`factor.get(..., 0.0)`), so its
weighted contribution is 0.0 and the vectorizer behaves as if the record were
`{value: 0, weight: 0}`; the embedding is a total function, there is no
failure path on such records. -/
theorem missing_keys_default_to_zero (fs : List FactorDict) (f : FactorDict)
    (h : f.value = none ∨ f.weight = none) :
    weightedValue f = 0 ∧
    extract_features_from_factors (f :: fs) =
      extract_features_from_factors ({ value := some 0, weight := some 0 } :: fs) := by
  have hw : weightedValue f = 0 := by
    rcases h with h | h <;> simp [weightedValue, h]
  refine ⟨hw, features_congr ?_⟩
  unfold weightedFeatures
  simp only [List.map]
  rw [hw]
  simp [weightedValue]

/-- Witness for C10 at a record that has a weight but no value key. -/
theorem missing_keys_default_to_zero_witness :
    weightedValue ⟨none, some 0.25⟩ = 0 ∧
    extract_features_from_factors [⟨none, some 0.25⟩] =
      extract_features_from_factors [⟨some 0, some 0⟩] :=
  missing_keys_default_to_zero [] ⟨none, some 0.25⟩ (Or.inl rfl)

/-- Claim C2, counterexample: the claim asserts min-max normalization yields
min 0 and max 2π whenever the max absolute weighted value is positive, "in
particular when all K weighted values are equal and nonzero".  With four
records of value 5.0 and weight 0.2 all weighted values are 1.0, so
`max - min = 0` and the normalization divides by zero: NumPy produces `nan`
vectors (in this exact `ℚ` model, division by zero is 0), and the maximum of
the result is not 2π in either semantics. -/
theorem features_equal_weighted_values_break_normalization :
    extract_features_from_factors
        [⟨some 5, some 0.2⟩, ⟨some 5, some 0.2⟩, ⟨some 5, some 0.2⟩, ⟨some 5, some 0.2⟩] =
      [0, 0, 0, 0] ∧
    listMaxR (extract_features_from_factors
        [⟨some 5, some 0.2⟩, ⟨some 5, some 0.2⟩, ⟨some 5, some 0.2⟩, ⟨some 5, some 0.2⟩]) ≠
      2 * Real.pi := by
  have hw : weightedFeatures
      [⟨some 5, some 0.2⟩, ⟨some 5, some 0.2⟩, ⟨some 5, some 0.2⟩, ⟨some 5, some 0.2⟩] =
      [1, 1, 1, 1] := by
    unfold weightedFeatures weightedValue feature_qubits
    norm_num
  have hmax : maxAbsQ [1, 1, 1, (1 : ℚ)] = 1 := by
    simp [maxAbsQ, listMaxQ, List.foldl]
  have hMq : listMaxQ [1, 1, 1, (1 : ℚ)] = 1 := by
    simp [listMaxQ, List.foldl]
  have hmq : listMinQ [1, 1, 1, (1 : ℚ)] = 1 := by
    simp [listMinQ, List.foldl]
  have hmain : extract_features_from_factors
      [⟨some 5, some 0.2⟩, ⟨some 5, some 0.2⟩, ⟨some 5, some 0.2⟩, ⟨some 5, some 0.2⟩] =
      [0, 0, 0, 0] := by
    unfold extract_features_from_factors
    rw [hw, hmax, hMq, hmq, if_pos (by norm_num : (0 : ℚ) < 1)]
    norm_num
  refine ⟨hmain, ?_⟩
  rw [hmain]
  have hzero : listMaxR [0, 0, 0, 0] = 0 := by
    simp [listMaxR, List.foldl]
  rw [hzero]
  have hpi : (0 : ℝ) < 2 * Real.pi := by positivity
  exact ne_of_lt hpi

/-- Claim C2, amended: whenever the K padded/truncated weighted values are not
all equal (min < max — which forces the max absolute value to be positive),
the normalized vector attains minimum exactly 0 and maximum exactly 2π.  When
they are all equal and nonzero the claim fails (see the counterexample): the
normalization denominator is zero. -/
theorem features_minmax_normalization_range (fs : List FactorDict)
    (hlt : listMinQ (weightedFeatures fs) < listMaxQ (weightedFeatures fs)) :
    listMinR (extract_features_from_factors fs) = 0 ∧
    listMaxR (extract_features_from_factors fs) = 2 * Real.pi := by
  have hne := weightedFeatures_ne_nil fs
  have hd : (0 : ℚ) < listMaxQ (weightedFeatures fs) - listMinQ (weightedFeatures fs) :=
    sub_pos.2 hlt
  have hpos : 0 < maxAbsQ (weightedFeatures fs) := maxAbsQ_pos hne hlt
  have hmono : Monotone (fun x : ℚ =>
      (((x - listMinQ (weightedFeatures fs)) /
          (listMaxQ (weightedFeatures fs) - listMinQ (weightedFeatures fs)) : ℚ) : ℝ)
        * (2 * Real.pi)) := by
    intro a b hab
    have h2pi : (0 : ℝ) ≤ 2 * Real.pi := by positivity
    refine mul_le_mul_of_nonneg_right ?_ h2pi
    rw [Rat.cast_le]
    gcongr
  unfold extract_features_from_factors
  rw [if_pos hpos]
  constructor
  · rw [listMinR_map _ (fun a b => hmono.map_min) hne]
    rw [sub_self, zero_div]
    norm_num
  · rw [listMaxR_map _ (fun a b => hmono.map_max) hne]
    rw [div_self (ne_of_gt hd)]
    norm_num

/-- Witness for the amended C2 at the spec's end-to-end example: weighted
values [1.0, 1.25, 1.5, 1.25] have min 1 < max 1.5. -/
theorem features_minmax_normalization_range_witness :
    listMinR (extract_features_from_factors
      [⟨some 5, some 0.2⟩, ⟨some 5, some 0.25⟩, ⟨some 5, some 0.3⟩, ⟨some 5, some 0.25⟩]) = 0 ∧
    listMaxR (extract_features_from_factors
      [⟨some 5, some 0.2⟩, ⟨some 5, some 0.25⟩, ⟨some 5, some 0.3⟩, ⟨some 5, some 0.25⟩]) =
      2 * Real.pi :=
  features_minmax_normalization_range _ (by
    have hw : weightedFeatures
        [⟨some 5, some 0.2⟩, ⟨some 5, some 0.25⟩, ⟨some 5, some 0.3⟩, ⟨some 5, some 0.25⟩] =
        [1, 5/4, 3/2, 5/4] := by
      unfold weightedFeatures weightedValue feature_qubits
      norm_num
    rw [hw]
    have h1 : listMinQ [1, 5/4, 3/2, (5/4 : ℚ)] = 1 := by
      simp only [listMinQ, List.foldl]
      rw [min_def, min_def, min_def]
      norm_num
    have h2 : listMaxQ [1, 5/4, 3/2, (5/4 : ℚ)] = 3/2 := by
      simp only [listMaxQ, List.foldl]
      rw [max_def, max_def, max_def]
      norm_num
    rw [h1, h2]
    norm_num)

theorem foldl_importance_eq_sum (tl : String) (l : List String) :
    ∀ a : ℚ,
      l.foldl (fun acc ind =>
        if 0 < pyCount tl (lowerStr ind) then
          acc + min ((pyCount tl (lowerStr ind) : ℚ) * 2) 10
        else acc) a =
      a + (l.map (fun ind =>
        if 0 < pyCount tl (lowerStr ind) then
          min ((pyCount tl (lowerStr ind) : ℚ) * 2) 10
        else 0)).sum := by
  induction l with
  | nil => intro a; simp
  | cons x xs ih =>
    intro a
    simp only [List.foldl, List.map, List.sum_cons]
    by_cases hx : 0 < pyCount tl (lowerStr x)
    · rw [if_pos hx, if_pos hx, ih]
      ring
    · rw [if_neg hx, if_neg hx, ih]
      ring

/-- Claim C7, counterexample: the claimed closed form fails in one degenerate
corner: the empty text with an indicator set containing the empty keyword.
Python returns 0.0 immediately (`if not text`), while the claimed formula
counts the empty keyword once in the empty text (`"".count("") == 1`), giving
`min(min(1*2, 10)/1, 10) = 2`. -/
theorem importance_formula_counterexample :
    calculate_text_importance "" [""] = 0 ∧ importanceFormula "" [""] = 2 := by
  constructor
  · rfl
  · unfold importanceFormula
    have hc : pyCount (lowerStr "") (lowerStr "") = 1 := by decide
    simp only [List.map, hc]
    norm_num

/-- Claim C7, amended: for every text and non-empty indicator set, the
importance score equals `min((Σ_kw min(count(kw) * 2, 10)) / n, 10)` with
case-insensitive substring counts — provided the text is non-empty or no
keyword is the empty string (for the empty text the code returns 0 without
counting, which the formula only matches when every keyword is non-empty). -/
theorem importance_formula_agrees (text : String) (inds : List String)
    (hne : inds ≠ []) (h : text ≠ "" ∨ "" ∉ inds) :
    calculate_text_importance text inds = importanceFormula text inds := by
  by_cases ht : text = ""
  · subst ht
    have hz : ∀ kw ∈ inds, pyCount (lowerStr "") (lowerStr kw) = 0 := by
      intro kw hkw
      have hkwne : kw ≠ "" := by
        rcases h with h | h
        · exact absurd rfl h
        · intro hk
          exact h (hk ▸ hkw)
      have hdata : (lowerStr kw).data ≠ [] := by
        simp only [lowerStr]
        intro hc
        apply hkwne
        have hkd : kw.data = [] := List.map_eq_nil_iff.1 hc
        cases kw
        simp_all
      show countOccs (lowerStr "").data (lowerStr kw).data = 0
      rw [show (lowerStr "").data = [] from rfl]
      unfold countOccs
      rw [if_neg hdata]
      cases hp : (lowerStr kw).data with
      | nil => exact absurd hp hdata
      | cons c cs => rfl
    have hl : calculate_text_importance "" inds = 0 := by
      unfold calculate_text_importance
      rw [if_pos (Or.inl rfl)]
    have hr : importanceFormula "" inds = 0 := by
      unfold importanceFormula
      have hmap : inds.map
          (fun kw => min ((pyCount (lowerStr "") (lowerStr kw) : ℚ) * 2) 10) =
          inds.map (fun _ => 0) := by
        apply List.map_congr_left
        intro kw hkw
        rw [hz kw hkw]
        norm_num
      rw [hmap]
      simp
    rw [hl, hr]
  · unfold calculate_text_importance importanceFormula
    rw [if_neg (by push_neg; exact ⟨ht, hne⟩)]
    rw [foldl_importance_eq_sum (lowerStr text) inds 0, zero_add]
    have hmap : inds.map (fun ind =>
        if 0 < pyCount (lowerStr text) (lowerStr ind) then
          min ((pyCount (lowerStr text) (lowerStr ind) : ℚ) * 2) 10
        else 0) =
        inds.map (fun kw => min ((pyCount (lowerStr text) (lowerStr kw) : ℚ) * 2) 10) := by
      apply List.map_congr_left
      intro i hi
      by_cases hc : 0 < pyCount (lowerStr text) (lowerStr i)
      · rw [if_pos hc]
      · rw [if_neg hc, Nat.eq_zero_of_not_pos hc]
        norm_num
    rw [hmap]

/-- Witness for the amended C7: a 2-keyword set with one keyword occurring 3
times and the other absent scores `min(min(3*2, 10)/2, 10) = 3`. -/
theorem importance_formula_agrees_witness :
    calculate_text_importance "ab ab ab" ["ab", "zz"] = importanceFormula "ab ab ab" ["ab", "zz"] ∧
    calculate_text_importance "ab ab ab" ["ab", "zz"] = 3 := by
  constructor
  · exact importance_formula_agrees "ab ab ab" ["ab", "zz"] (by decide) (Or.inl (by decide))
  · have h1 : pyCount (lowerStr "ab ab ab") (lowerStr "ab") = 3 := by decide
    have h2 : pyCount (lowerStr "ab ab ab") (lowerStr "zz") = 0 := by decide
    unfold calculate_text_importance
    rw [if_neg (by simp)]
    simp only [List.foldl, h1, h2]
    norm_num

/-- Claim C8: the numeric extractor tries the patterns in order; an empty
match list falls through; the first match list `m :: _` contributes only its
first element `m`; a successful parse returns that value; a failed parse
(`except ValueError/TypeError: continue`) falls through to the next pattern;
the empty pattern list returns 0.0; and a 0.0 result is treated as "not
found" by the caller — no factor for that metric (here: no 营收规模 factor)
appears in the scanner output. -/
theorem extract_numeric_value_spec (findall : String → String → List String)
    (parse : String → Option ℚ) (text : String) :
    extract_numeric_value findall parse [] text = 0 ∧
    (∀ pat rest, findall pat text = [] →
      extract_numeric_value findall parse (pat :: rest) text =
        extract_numeric_value findall parse rest text) ∧
    (∀ pat rest m ms v, findall pat text = m :: ms → parse m = some v →
      extract_numeric_value findall parse (pat :: rest) text = v) ∧
    (∀ pat rest m ms, findall pat text = m :: ms → parse m = none →
      extract_numeric_value findall parse (pat :: rest) text =
        extract_numeric_value findall parse rest text) ∧
    (extract_numeric_value findall parse revenue_patterns text = 0 →
      ∀ f ∈ extract_financial_factors findall parse text, f.name ≠ "营收规模") := by
  refine ⟨rfl, ?_, ?_, ?_, ?_⟩
  · intro pat rest h
    simp only [extract_numeric_value, h]
  · intro pat rest m ms v hm hp
    simp only [extract_numeric_value, hm, hp]
  · intro pat rest m ms hm hp
    simp only [extract_numeric_value, hm, hp]
  · intro h0 f hf
    simp only [extract_financial_factors, List.mem_append] at hf
    rw [h0] at hf
    simp only [lt_self_iff_false, if_false, List.not_mem_nil, false_or] at hf
    rcases hf with ((h | h) | h) | h <;> obtain ⟨hc, rfl⟩ := mem_ite_singleton h <;> simp

/-- Witness for C8: with a first pattern that has no match and a second whose
first captured group parses to 7, the extractor skips the first pattern and
returns 7. -/
theorem extract_numeric_value_spec_witness :
    extract_numeric_value (fun pat _ => if pat = "p1" then [] else ["7"])
      (fun s => if s = "7" then some (7 : ℚ) else none) ["p1", "p2"] "t" = 7 := by
  have hs := extract_numeric_value_spec (fun pat _ => if pat = "p1" then [] else ["7"])
      (fun s => if s = "7" then some (7 : ℚ) else none) "t"
  rw [hs.2.1 "p1" ["p2"] (by simp)]
  exact hs.2.2.1 "p2" [] "7" [] 7 (by simp) (by simp)
